import Mathlib

/-!
Shallow embedding of the cellular genetic algorithm engine in
`src/lib/cellular-ga.ts`.

Modelling conventions:

* JavaScript numbers are modelled as `ℚ` (fitness values, rates, random
  draws) and `ℤ` (the stream's seed counter, integer draws).  The only
  floating-point transcendentals in the engine are `Math.sin` inside the
  random stream and `Math.cos` inside the `rastrigin` evaluator; both are
  abstracted as explicit function parameters (`rf` for the fractional part
  `frac (sin seed * 10000)`, `cosFn` for `t ↦ cos (2 * π * t)`), so every
  definition is a pure function of those parameters and the structure of
  the code is preserved exactly.
* `SeededRandom` is the class at the top of the file: a single mutable
  integer counter advanced by one on every draw.  All stateful methods are
  written in state-passing style, returning the drawn value together with
  the advanced stream.
* Nullable fields (`fitness: number | null`) become `Option ℚ`; the
  non-null assertion `x.fitness!` becomes `fitD` (`Option.getD` with 0),
  reached only where the source guarantees the field was set.
* Unchecked array indexing (`population[id]`, `choice` results) becomes
  `List.getD` with an explicit junk default; the engine only reaches those
  sites with indices that are in range whenever the stream's draws lie in
  `[0,1)`, which is a hypothesis of the theorems where it matters.
* The do-while rejection loop of `buildSmallWorld` can diverge, so it is
  embedded with explicit fuel and an `Option` result, `none` standing for
  nontermination within the given fuel.
* The constructor can throw a `TypeError` (calling `undefined` when the
  configured fitness-function identifier is not a key of
  `FitnessFunctions`); it is embedded as `Except`.
* 2D layout positions are pure trigonometry of the cell id, consume no
  stream draws and are never read by the algorithm; they are omitted, only
  the adjacency lists of `TopologyManager` are modelled.
-/

namespace CGA

/-- State of the `SeededRandom` class: the mutable seed counter. -/
structure SeededRandom where
  seed : ℤ
deriving DecidableEq, Repr

/-- `random()`: returns `frac (sin seed * 10000)` — abstracted as `rf seed` —
and advances the counter by one (`this.seed++`). -/
def SeededRandom.random (rf : ℤ → ℚ) (r : SeededRandom) : ℚ × SeededRandom :=
  (rf r.seed, ⟨r.seed + 1⟩)

/-- `randomInt(min, max) = floor(random() * (max - min + 1)) + min`. -/
def SeededRandom.randomInt (rf : ℤ → ℚ) (r : SeededRandom) (lo hi : ℤ) :
    ℤ × SeededRandom :=
  let p := r.random rf
  (⌊p.1 * ((hi : ℚ) - lo + 1)⌋ + lo, p.2)

/-- `choice(arr) = arr[randomInt(0, arr.length - 1)]`.  The `dflt` argument
models the `undefined` an out-of-range index would give in JavaScript; the
index is in range whenever the draw lies in `[0,1)` and `arr` is nonempty. -/
def SeededRandom.choice (rf : ℤ → ℚ) (r : SeededRandom) (arr : List α)
    (dflt : α) : α × SeededRandom :=
  let p := r.randomInt rf 0 ((arr.length : ℤ) - 1)
  (arr.getD p.1.toNat dflt, p.2)

/-- `BinaryIndividual`: bit-vector genome with nullable cached fitness. -/
structure BinaryIndividual where
  genome : List ℕ
  fitness : Option ℚ
deriving DecidableEq, Repr

/-- `BinaryIndividual.copy()`: fresh buffer, same genome and cached fitness. -/
def BinaryIndividual.copy (ind : BinaryIndividual) : BinaryIndividual :=
  { genome := ind.genome, fitness := ind.fitness }

/-- The genome built by the `BinaryIndividual` constructor:
each of `length` genes is `rng.random() < 0.5 ? 0 : 1`, drawn in order. -/
def mkBinaryGenome (rf : ℤ → ℚ) : ℕ → SeededRandom → List ℕ × SeededRandom
  | 0, r => ([], r)
  | n + 1, r =>
      let p := r.random rf
      let g : ℕ := if p.1 < 1/2 then 0 else 1
      let rest := mkBinaryGenome rf n p.2
      (g :: rest.1, rest.2)

/-- `new BinaryIndividual(length, rng)`: genome drawn from the stream,
fitness initialised to `null`. -/
def BinaryIndividual.create (rf : ℤ → ℚ) (length : ℕ) (r : SeededRandom) :
    BinaryIndividual × SeededRandom :=
  let p := mkBinaryGenome rf length r
  ({ genome := p.1, fitness := none }, p.2)

/-- `RealVectorIndividual`: real vector with nullable cached fitness. -/
structure RealVectorIndividual where
  x : List ℚ
  fitness : Option ℚ
deriving DecidableEq, Repr

/-- `RealVectorIndividual.copy()`. -/
def RealVectorIndividual.copy (ind : RealVectorIndividual) :
    RealVectorIndividual :=
  { x := ind.x, fitness := ind.fitness }

/-- The vector built by the `RealVectorIndividual` constructor:
each of `dim` components is `min + rng.random() * (max - min)`. -/
def mkRealGenome (rf : ℤ → ℚ) (lo hi : ℚ) :
    ℕ → SeededRandom → List ℚ × SeededRandom
  | 0, r => ([], r)
  | n + 1, r =>
      let p := r.random rf
      let rest := mkRealGenome rf lo hi n p.2
      ((lo + p.1 * (hi - lo)) :: rest.1, rest.2)

/-- `new RealVectorIndividual(dim, rng)` with the default bounds
`[-5.12, 5.12]`. -/
def RealVectorIndividual.create (rf : ℤ → ℚ) (dim : ℕ) (r : SeededRandom) :
    RealVectorIndividual × SeededRandom :=
  let p := mkRealGenome rf (-512/100) (512/100) dim r
  ({ x := p.1, fitness := none }, p.2)

/-- `type Individual = BinaryIndividual | RealVectorIndividual`. -/
inductive Individual
  | bin : BinaryIndividual → Individual
  | rvec : RealVectorIndividual → Individual
deriving DecidableEq, Repr

/-- Cached fitness of either variant. -/
def Individual.fitness : Individual → Option ℚ
  | .bin b => b.fitness
  | .rvec v => v.fitness

/-- `copy()` dispatched on the variant. -/
def Individual.copy : Individual → Individual
  | .bin b => .bin b.copy
  | .rvec v => .rvec v.copy

/-- Overwrite the cached fitness (the `child.fitness = …` assignments). -/
def Individual.setFitness : Individual → Option ℚ → Individual
  | .bin b, f => .bin { b with fitness := f }
  | .rvec v, f => .rvec { v with fitness := f }

/-- The `parent as BinaryIndividual` cast in `evolve()`.  The junk value for
a real-vector individual models the unchecked TypeScript cast; the engine
only applies it to individuals of the binary variant. -/
def Individual.asBin : Individual → BinaryIndividual
  | .bin b => b
  | .rvec v => { genome := [], fitness := v.fitness }

/-- The `parent as RealVectorIndividual` cast in `evolve()`. -/
def Individual.asRvec : Individual → RealVectorIndividual
  | .rvec v => v
  | .bin b => { x := [], fitness := b.fitness }

/-- The non-null assertion `ind.fitness!`: the engine only reads fitness
after it has been evaluated and cached. -/
def fitD (ind : Individual) : ℚ :=
  ind.fitness.getD 0

/-- The bit-vector genome of an individual (for stating properties). -/
def Individual.binGenome (ind : Individual) : List ℕ :=
  ind.asBin.genome

/-- `FitnessFunctions.onemax`: `genome.length - Σ genes`. -/
def onemax (ind : BinaryIndividual) : ℚ :=
  (ind.genome.length : ℚ) - ((ind.genome.foldl (· + ·) 0 : ℕ) : ℚ)

/-- `FitnessFunctions.trap`: 0 at all-zeros, 1 at all-ones,
`n - ones + 1` otherwise. -/
def trap (ind : BinaryIndividual) : ℚ :=
  let ones : ℕ := ind.genome.foldl (· + ·) 0
  let n := ind.genome.length
  if ones = 0 then 0
  else if ones = n then 1
  else (n : ℚ) - ones + 1

/-- `FitnessFunctions.sphere`: `Σ xᵢ²`. -/
def sphere (ind : RealVectorIndividual) : ℚ :=
  ind.x.foldl (fun s xi => s + xi * xi) 0

/-- `FitnessFunctions.rastrigin` with `A = 10`; `cosFn t` stands for
`Math.cos(2 * Math.PI * t)`. -/
def rastrigin (cosFn : ℚ → ℚ) (ind : RealVectorIndividual) : ℚ :=
  let A : ℚ := 10
  let d := ind.x.length
  ind.x.foldl (fun s xi => s + (xi * xi - A * cosFn xi)) (A * d)

/-- The section of the child genome rewritten by the `for` loop of
`binaryCrossover`: positions `i ≥ cut` take `p2`'s gene, the rest keep
`p1`'s (for negative `cut`, JavaScript's loop writes object properties at
negative keys without touching the array elements, so elements from
`max cut 0` on are replaced, which this form reproduces). -/
def spliceFrom (cut : ℤ) (g1 g2 : List ℕ) : List ℕ :=
  (List.range g1.length).map fun i =>
    if cut ≤ Int.ofNat i then g2.getD i 0 else g1.getD i 0

/-- `binaryCrossover`: draws `cut = randomInt(1, p1.genome.length - 1)`,
copies `p1` and overwrites genes from `cut` on with `p2`'s. -/
def binaryCrossover (rf : ℤ → ℚ) (p1 p2 : BinaryIndividual)
    (r : SeededRandom) : BinaryIndividual × SeededRandom :=
  let pc := r.randomInt rf 1 ((p1.genome.length : ℤ) - 1)
  let child := p1.copy
  ({ child with genome := spliceFrom pc.1 child.genome p2.genome }, pc.2)

/-- The per-gene loop of `binaryMutate`: one draw per gene, flipping the
gene (`1 - g`) when the draw is below the rate. -/
def binaryMutateGenome (rf : ℤ → ℚ) (rate : ℚ) :
    List ℕ → SeededRandom → List ℕ × SeededRandom
  | [], r => ([], r)
  | g :: gs, r =>
      let p := r.random rf
      let g' := if p.1 < rate then 1 - g else g
      let rest := binaryMutateGenome rf rate gs p.2
      (g' :: rest.1, rest.2)

/-- `binaryMutate(ind, rng, rate)` (in-place in the source; returns the
mutated individual here). -/
def binaryMutate (rf : ℤ → ℚ) (rate : ℚ) (ind : BinaryIndividual)
    (r : SeededRandom) : BinaryIndividual × SeededRandom :=
  let p := binaryMutateGenome rf rate ind.genome r
  ({ ind with genome := p.1 }, p.2)

/-- The per-component loop of `realVectorCrossover`: a fresh blend weight
`α` per component, `child[i] = α * p1[i] + (1 - α) * p2[i]`.  Iterates over
the child's (= `p1`'s) components; `x2.getD` models `p2.x[i]`. -/
def blendGenome (rf : ℤ → ℚ) (x2 : List ℚ) :
    List ℚ → ℕ → SeededRandom → List ℚ × SeededRandom
  | [], _, r => ([], r)
  | x1i :: rest1, i, r =>
      let p := r.random rf
      let ci := p.1 * x1i + (1 - p.1) * x2.getD i 0
      let rest := blendGenome rf x2 rest1 (i + 1) p.2
      (ci :: rest.1, rest.2)

/-- `realVectorCrossover`. -/
def realVectorCrossover (rf : ℤ → ℚ) (p1 p2 : RealVectorIndividual)
    (r : SeededRandom) : RealVectorIndividual × SeededRandom :=
  let child := p1.copy
  let p := blendGenome rf p2.x child.x 0 r
  ({ child with x := p.1 }, p.2)

/-- The per-component loop of `realVectorMutate`: one gate draw per
component; only when it is below the rate a second draw perturbs the
component by `(draw - 0.5) * sigma`. -/
def realMutateGenome (rf : ℤ → ℚ) (rate sigma : ℚ) :
    List ℚ → SeededRandom → List ℚ × SeededRandom
  | [], r => ([], r)
  | xi :: xs, r =>
      let p := r.random rf
      if p.1 < rate then
        let q := p.2.random rf
        let rest := realMutateGenome rf rate sigma xs q.2
        ((xi + (q.1 - 1/2) * sigma) :: rest.1, rest.2)
      else
        let rest := realMutateGenome rf rate sigma xs p.2
        (xi :: rest.1, rest.2)

/-- `realVectorMutate` with the default `sigma = 0.1`. -/
def realVectorMutate (rf : ℤ → ℚ) (rate : ℚ) (ind : RealVectorIndividual)
    (r : SeededRandom) : RealVectorIndividual × SeededRandom :=
  let p := realMutateGenome rf rate (1/10) ind.x r
  ({ ind with x := p.1 }, p.2)

/-- `TopologyManager.buildRing`: cell `i`'s neighbours are
`[(i - 1 + N) % N, (i + 1) % N]` (layout positions omitted, they consume no
stream draws). -/
def buildRing (popSize : ℕ) : List (List ℕ) :=
  (List.range popSize).map fun i =>
    [(((Int.ofNat i - 1 + popSize) % popSize).toNat),
     ((i + 1) % popSize)]

/-- `Math.ceil(Math.sqrt(popSize))`: the least `g` with `n ≤ g * g`
(written as a bounded search so that it evaluates by kernel reduction). -/
def ceilSqrt (n : ℕ) : ℕ :=
  (((List.range (n + 1)).find? fun g => n ≤ g * g).getD n)

/-- The `(dr, dc)` pairs of the Moore-neighbourhood double loop of
`buildGrid`, in iteration order, with `(0, 0)` skipped by `continue`. -/
def mooreOffsets : List (ℤ × ℤ) :=
  [(-1, -1), (-1, 0), (-1, 1), (0, -1), (0, 1), (1, -1), (1, 0), (1, 1)]

/-- The neighbour list `buildGrid` assembles for cell `i`: toroidal wrap of
row and column, keeping only indices `< popSize`. -/
def gridNeighborsOf (popSize gridSize i : ℕ) : List ℕ :=
  let row := i / gridSize
  let col := i % gridSize
  mooreOffsets.filterMap fun dd =>
    let newRow := ((Int.ofNat row + dd.1 + gridSize) % gridSize).toNat
    let newCol := ((Int.ofNat col + dd.2 + gridSize) % gridSize).toNat
    let idx := newRow * gridSize + newCol
    if idx < popSize then some idx else none

/-- `TopologyManager.buildGrid` (adjacency only). -/
def buildGrid (popSize : ℕ) : List (List ℕ) :=
  let gridSize := ceilSqrt popSize
  (List.range popSize).map fun i => gridNeighborsOf popSize gridSize i

/-- The do-while rejection loop inside `buildSmallWorld`: draw
`randomInt(0, popSize - 1)` until the candidate differs from the cell's own
id and from every id already in the cell's list.  `fuel` bounds the number
of draws; `none` models an execution that is still rejecting when the fuel
runs out (the source loop would simply keep running). -/
def drawNewNeighbor (rf : ℤ → ℚ) (popSize i : ℕ) (cur : List ℕ) :
    ℕ → SeededRandom → Option (ℕ × SeededRandom)
  | 0, _ => none
  | fuel + 1, r =>
      let p := r.randomInt rf 0 ((popSize : ℤ) - 1)
      let cand := p.1.toNat
      if cand = i ∨ cand ∈ cur then drawNewNeighbor rf popSize i cur fuel p.2
      else some (cand, p.2)

/-- The inner slot loop of `buildSmallWorld` for one cell `i`: for each slot
`j` (of which `todo` remain — `cur.length` at entry, an invariant of the
loop since `set` preserves length), one gate draw; when it is below the
rewiring probability, the rejection loop replaces slot `j`.  Written with
the countdown `todo` so recursion is structural. -/
def rewireCell (rf : ℤ → ℚ) (fuel popSize i : ℕ) (prob : ℚ) :
    ℕ → ℕ → List ℕ → SeededRandom → Option (List ℕ × SeededRandom)
  | _, 0, cur, r => some (cur, r)
  | j, todo + 1, cur, r =>
      let p := r.random rf
      if p.1 < prob then
        match drawNewNeighbor rf popSize i cur fuel p.2 with
        | none => none
        | some (nn, r2) =>
            rewireCell rf fuel popSize i prob (j + 1) todo (cur.set j nn) r2
      else rewireCell rf fuel popSize i prob (j + 1) todo cur p.2

/-- The outer cell loop of `buildSmallWorld` over the copied ring adjacency
`rew` (`todo` cells remain, `popSize` at entry). -/
def rewireCells (rf : ℤ → ℚ) (fuel popSize : ℕ) (prob : ℚ) :
    ℕ → ℕ → List (List ℕ) → SeededRandom →
      Option (List (List ℕ) × SeededRandom)
  | _, 0, rew, r => some (rew, r)
  | i, todo + 1, rew, r =>
      match rewireCell rf fuel popSize i prob 0 (rew.getD i []).length
          (rew.getD i []) r with
      | none => none
      | some (l, r2) =>
          rewireCells rf fuel popSize prob (i + 1) todo (rew.set i l) r2

/-- `TopologyManager.buildSmallWorld`: ring adjacency, then per-slot
rewiring (with fuel for the rejection loop). -/
def buildSmallWorld (rf : ℤ → ℚ) (fuel popSize : ℕ) (prob : ℚ)
    (r : SeededRandom) : Option (List (List ℕ) × SeededRandom) :=
  rewireCells rf fuel popSize prob 0 popSize (buildRing popSize) r

/-- `TopologyManager.buildTopology`: dispatch on the topology string;
unrecognised kinds fall back to grid.  Only the small-world branch consumes
stream draws or can diverge. -/
def buildTopology (rf : ℤ → ℚ) (fuel popSize : ℕ) (topology : String)
    (prob : ℚ) (r : SeededRandom) :
    Option (List (List ℕ) × SeededRandom) :=
  if topology = "ring" then some (buildRing popSize, r)
  else if topology = "grid" then some (buildGrid popSize, r)
  else if topology = "smallworld" then buildSmallWorld rf fuel popSize prob r
  else some (buildGrid popSize, r)

/-- `getNeighbors(index)`: `this.neighbors[index] || []`. -/
def getNeighbors (nbrs : List (List ℕ)) (index : ℕ) : List ℕ :=
  nbrs.getD index []

/-- `GAConfig`.  `popSize` and `genomeLength` are naturals: a non-positive
JavaScript value makes every construction loop run zero times, exactly as
the value `0` does here.  `fitnessFunction` stays a raw string so that
invalid identifiers are representable. -/
structure GAConfig where
  popSize : ℕ
  genomeLength : ℕ
  mutationRate : ℚ
  crossoverRate : ℚ
  rewiringProb : ℚ
  topology : String
  fitnessFunction : String
  seed : ℤ
deriving DecidableEq, Repr

/-- `CellularGA.isBinary()`. -/
def isBinary (cfg : GAConfig) : Bool :=
  cfg.fitnessFunction = "onemax" ∨ cfg.fitnessFunction = "trap"

/-- `FitnessFunctions[name](ind)`: `none` models the TypeError thrown when
`name` is not a key of `FitnessFunctions` (or the evaluator is applied to
the wrong variant, which also throws in JavaScript). -/
def evaluate (cosFn : ℚ → ℚ) (name : String) (ind : Individual) : Option ℚ :=
  match ind with
  | .bin b =>
      if name = "onemax" then some (onemax b)
      else if name = "trap" then some (trap b)
      else none
  | .rvec v =>
      if name = "sphere" then some (sphere v)
      else if name = "rastrigin" then some (rastrigin cosFn v)
      else none

/-- Total version of `evaluate` used inside `evolve()`: that call site is
only reached after construction succeeded, which forces a valid identifier
matching the variant, so the default is never read on reachable states. -/
def evaluateD (cosFn : ℚ → ℚ) (name : String) (ind : Individual) : ℚ :=
  (evaluate cosFn name ind).getD 0

/-- Runtime failures of the constructor: `typeError` is the JavaScript
TypeError from calling an `undefined` fitness function; `diverge` is
exhaustion of the small-world fuel (the source would loop forever). -/
inductive GAErr
  | typeError
  | diverge
deriving DecidableEq, Repr

/-- Engine state (`CellularGA`'s fields; the topology manager is reduced to
its adjacency lists, its positions being rendering-only). -/
structure CellularGA where
  config : GAConfig
  rng : SeededRandom
  generation : ℕ
  population : List Individual
  histBest : List ℚ
  histAvg : List ℚ
  neighbors : List (List ℕ)
deriving DecidableEq, Repr

/-- Junk individual modelling the `undefined` of an out-of-range population
index; never read on reachable states when draws lie in `[0,1)`. -/
def dfltInd : Individual :=
  .bin { genome := [], fitness := none }

/-- The individual built by one `initPopulation` iteration: the variant is
selected by `isBinary()`. -/
def createInd (rf : ℤ → ℚ) (cfg : GAConfig) (r : SeededRandom) :
    Individual × SeededRandom :=
  if isBinary cfg then
    let q := BinaryIndividual.create rf cfg.genomeLength r
    (.bin q.1, q.2)
  else
    let q := RealVectorIndividual.create rf cfg.genomeLength r
    (.rvec q.1, q.2)

/-- The `initPopulation` loop: create `n` individuals in cell order, each
evaluated immediately; a TypeError aborts the whole construction. -/
def initPop (rf : ℤ → ℚ) (cosFn : ℚ → ℚ) (cfg : GAConfig) :
    ℕ → SeededRandom → Except GAErr (List Individual × SeededRandom)
  | 0, r => .ok ([], r)
  | n + 1, r =>
      let p := createInd rf cfg r
      match evaluate cosFn cfg.fitnessFunction p.1 with
      | none => .error .typeError
      | some f =>
          match initPop rf cosFn cfg n p.2 with
          | .error e => .error e
          | .ok (rest, r2) => .ok (p.1.setFitness (some f) :: rest, r2)

/-- `CellularGA.tournamentSelection(indices)`: two `choice` draws from the
candidate ids, then a copy of the individual with the strictly lower cached
fitness (`a.fitness! < b.fitness! ? a : b`, so an equal-fitness tie keeps
`b`, the second drawn). -/
def tournamentSelection (rf : ℤ → ℚ) (pop : List Individual)
    (indices : List ℕ) (r : SeededRandom) : Individual × SeededRandom :=
  let pa := SeededRandom.choice rf r indices 0
  let a := pop.getD pa.1 dfltInd
  let pb := SeededRandom.choice rf pa.2 indices 0
  let b := pop.getD pb.1 dfltInd
  ((if fitD a < fitD b then a else b).copy, pb.2)

/-- The body of `evolve()`'s loop for one cell `i`: candidate set
`[...neighbors(i), i]`, two tournaments, crossover (unconditional in the
source — `config.crossoverRate` is never consulted), mutation, evaluation,
and the strict replace-if-better decision against the incumbent. -/
def evolveCell (rf : ℤ → ℚ) (cosFn : ℚ → ℚ) (cfg : GAConfig)
    (nbrs : List (List ℕ)) (pop : List Individual) (i : ℕ)
    (r : SeededRandom) : Individual × SeededRandom :=
  let candidates := getNeighbors nbrs i ++ [i]
  let t1 := tournamentSelection rf pop candidates r
  let t2 := tournamentSelection rf pop candidates t1.2
  let cm : Individual × SeededRandom :=
    if isBinary cfg then
      let c := binaryCrossover rf t1.1.asBin t2.1.asBin t2.2
      let m := binaryMutate rf cfg.mutationRate c.1 c.2
      (.bin m.1, m.2)
    else
      let c := realVectorCrossover rf t1.1.asRvec t2.1.asRvec t2.2
      let m := realVectorMutate rf cfg.mutationRate c.1 c.2
      (.rvec m.1, m.2)
  let child := cm.1.setFitness (some (evaluateD cosFn cfg.fitnessFunction cm.1))
  let incumbent := pop.getD i dfltInd
  (if fitD child < fitD incumbent then child else incumbent, cm.2)

/-- The ascending-cell loop of `evolve()` assembling the new population in
a separate buffer: processes `n` cells starting at cell `i`, reading only
the previous population `pop`. -/
def evolvePop (rf : ℤ → ℚ) (cosFn : ℚ → ℚ) (cfg : GAConfig)
    (nbrs : List (List ℕ)) (pop : List Individual) :
    ℕ → ℕ → SeededRandom → List Individual × SeededRandom
  | _, 0, r => ([], r)
  | i, n + 1, r =>
      let c := evolveCell rf cosFn cfg nbrs pop i r
      let rest := evolvePop rf cosFn cfg nbrs pop (i + 1) n c.2
      (c.1 :: rest.1, rest.2)

/-- `Math.min(...fitnesses)` (empty spread gives `Infinity` in the source;
the engine only takes it over the population, junk 0 for the empty case). -/
def jsMin : List ℚ → ℚ
  | [] => 0
  | f :: fs => fs.foldl min f

/-- `fitnesses.reduce((a, b) => a + b, 0) / fitnesses.length` (0/0 = 0 here
where JavaScript yields NaN for an empty population). -/
def jsAvg (l : List ℚ) : ℚ :=
  (l.foldl (· + ·) 0) / l.length

/-- `CellularGA.updateHistory()`: push `(min, mean)` of the population's
cached fitnesses, then `shift` both sequences once when past 300 entries. -/
def updateHistory (pop : List Individual) (hb ha : List ℚ) :
    List ℚ × List ℚ :=
  let fits := pop.map fitD
  let hb2 := hb ++ [jsMin fits]
  let ha2 := ha ++ [jsAvg fits]
  if 300 < hb2.length then (hb2.drop 1, ha2.drop 1) else (hb2, ha2)

/-- `CellularGA.evolve()`: build the new population over all cells in
ascending order, swap it in, bump the generation counter, update history. -/
def evolve (rf : ℤ → ℚ) (cosFn : ℚ → ℚ) (g : CellularGA) : CellularGA :=
  let p := evolvePop rf cosFn g.config g.neighbors g.population 0
    g.config.popSize g.rng
  let h := updateHistory p.1 g.histBest g.histAvg
  { g with
    population := p.1
    rng := p.2
    generation := g.generation + 1
    histBest := h.1
    histAvg := h.2 }

/-- The `CellularGA` constructor: seed the stream from the configuration,
initialise and evaluate the population, then build the topology (which may
consume further draws).  No configuration validation is performed in the
source; the only failures are the TypeError from an invalid
fitness-function identifier at the first evaluation, and small-world
divergence. -/
def mkCellularGA (rf : ℤ → ℚ) (cosFn : ℚ → ℚ) (fuel : ℕ) (cfg : GAConfig) :
    Except GAErr CellularGA :=
  match initPop rf cosFn cfg cfg.popSize ⟨cfg.seed⟩ with
  | .error e => .error e
  | .ok (pop, r1) =>
      match buildTopology rf fuel cfg.popSize cfg.topology cfg.rewiringProb r1 with
      | none => .error .diverge
      | some (nbrs, r2) =>
          .ok
            { config := cfg
              rng := r2
              generation := 0
              population := pop
              histBest := []
              histAvg := []
              neighbors := nbrs }

/-! ### Derived definitions used to state properties -/

/-- The first candidate drawn by a tournament (`const a = population[choice]`). -/
def firstPick (rf : ℤ → ℚ) (pop : List Individual) (indices : List ℕ)
    (r : SeededRandom) : Individual :=
  pop.getD (SeededRandom.choice rf r indices 0).1 dfltInd

/-- The second candidate drawn by a tournament (`const b = population[choice]`,
drawn from the stream state left by the first draw). -/
def secondPick (rf : ℤ → ℚ) (pop : List Individual) (indices : List ℕ)
    (r : SeededRandom) : Individual :=
  pop.getD
    (SeededRandom.choice rf (SeededRandom.choice rf r indices 0).2 indices 0).1
    dfltInd

/-- Best (minimum) population fitness of each generation `1 … k`, in
generation order: the values `updateHistory` pushes. -/
def bestSeq (rf : ℤ → ℚ) (cosFn : ℚ → ℚ) (s0 : CellularGA) (k : ℕ) :
    List ℚ :=
  (List.range k).map fun g =>
    jsMin (((evolve rf cosFn)^[g + 1] s0).population.map fitD)

/-- Mean population fitness of each generation `1 … k`, in generation
order. -/
def avgSeq (rf : ℤ → ℚ) (cosFn : ℚ → ℚ) (s0 : CellularGA) (k : ℕ) :
    List ℚ :=
  (List.range k).map fun g =>
    jsAvg (((evolve rf cosFn)^[g + 1] s0).population.map fitD)

/-! ### Concrete instances for counterexamples and witnesses -/

/-- A stream whose every draw is 0 (a legal draw value, since draws lie in
`[0,1)`). -/
def zeroStream : ℤ → ℚ := fun _ => 0

/-- A constant stand-in for the cosine table (irrelevant to binary runs). -/
def cosZ : ℚ → ℚ := fun _ => 0

/-- Tiny valid configuration used by several witnesses. -/
def cfgW : GAConfig :=
  { popSize := 1, genomeLength := 1, mutationRate := 0, crossoverRate := 0,
    rewiringProb := 0, topology := "ring", fitnessFunction := "onemax",
    seed := 0 }

/-- The engine state the constructor builds from `cfgW` and `zeroStream`. -/
def s0W : CellularGA :=
  { config := cfgW
    rng := ⟨1⟩
    generation := 0
    population := [.bin { genome := [0], fitness := some 1 }]
    histBest := []
    histAvg := []
    neighbors := [[0, 0]] }

/-- Draw values enforcing the C1 scenario: initial genomes `[1,1,0]` and
`[0,1,1]`, then tournament picks parent1 = cell 0, parent2 = cell 1 and a
crossover cut of 1 for cell 0. -/
def valsC1 : List ℚ := [9/10, 9/10, 1/10, 1/10, 9/10, 9/10, 0, 7/10, 0, 0, 0]

/-- The stream realising `valsC1` from seed 0 upwards. -/
def streamC1 : ℤ → ℚ := fun z => valsC1.getD z.toNat 0

/-- Configuration with crossover and mutation rates both 0. -/
def cfgC1 : GAConfig :=
  { popSize := 2, genomeLength := 3, mutationRate := 0, crossoverRate := 0,
    rewiringProb := 0, topology := "ring", fitnessFunction := "onemax",
    seed := 0 }

/-- Two equal-fitness individuals with different genomes (tie scenario). -/
def tiePop : List Individual :=
  [.bin { genome := [0], fitness := some 1 },
   .bin { genome := [1], fitness := some 1 }]

/-- Stream making the first tournament draw pick candidate index 0 and the
second pick candidate index 1. -/
def tieStream : ℤ → ℚ := fun z => if z = 0 then 0 else 7/10

/-- Equal-fitness population for the C2 witness (distinct from `tiePop`). -/
def tiePopW : List Individual :=
  [.bin { genome := [0, 0], fitness := some 2 },
   .bin { genome := [1, 0], fitness := some 2 }]

/-- Thoroughly invalid configuration: non-positive population size and
genome length, unknown fitness-function identifier. -/
def cfgInvalid : GAConfig :=
  { popSize := 0, genomeLength := 0, mutationRate := 0, crossoverRate := 0,
    rewiringProb := 1, topology := "smallworld", fitnessFunction := "bogus",
    seed := 5 }

/-- Invalid fitness identifier with a positive population size. -/
def cfgBadName : GAConfig :=
  { popSize := 1, genomeLength := 2, mutationRate := 0, crossoverRate := 0,
    rewiringProb := 0, topology := "ring", fitnessFunction := "onemax2",
    seed := 3 }

deriving instance DecidableEq for Except

/-! ### Helper lemmas -/

section SemireducibleRat

/- Batteries marks the arithmetic of `ℚ` irreducible, which blocks `decide`
on concrete engine runs; restore default reducibility locally. -/
attribute [local semireducible] Rat.add Rat.mul Rat.sub Rat.inv

theorem set_getD_self (l : List α) (i : ℕ) (d : α) :
    l.set i (l.getD i d) = l := by
  induction l generalizing i with
  | nil => rfl
  | cons a t ih =>
    cases i with
    | zero => rfl
    | succ j => exact congrArg (List.cons a) (ih j)

theorem fitD_copy (ind : Individual) : fitD ind.copy = fitD ind := by
  cases ind <;> rfl

/-! ### C8: 3×3 toroidal grid neighbourhoods -/

/-- C8: For `popSize = 9` with the grid topology (a 3×3 toroidal grid), the
built adjacency gives every cell exactly 8 neighbours, all pairwise
distinct, and none equal to the cell itself. -/
theorem grid_nine_neighbors (i : ℕ) (hi : i < 9) :
    ((buildGrid 9).getD i []).length = 8 ∧
      ((buildGrid 9).getD i []).Nodup ∧
      i ∉ (buildGrid 9).getD i [] := by
  revert i
  decide

theorem grid_nine_neighbors_witness :
    4 < 9 ∧
      (((buildGrid 9).getD 4 []).length = 8 ∧
        ((buildGrid 9).getD 4 []).Nodup ∧
        4 ∉ (buildGrid 9).getD 4 []) :=
  ⟨by decide, grid_nine_neighbors 4 (by decide)⟩

/-! ### C10: single-cut crossover at genome length 1 -/

/-- C10 as stated is false on the code: `binaryCrossover` on two length-1
parents is not guarded — it still performs the degenerate draw
`randomInt(1, 0)` inside the crossover (the stream advances from seed 0 to
seed 1), the drawn cut index 1 lies outside the claimed range `[1, 0]`
(which is empty, as `¬ 1 ≤ 0`), and execution continues silently, returning
a copy of parent1. -/
theorem length_one_crossover_draw_unguarded :
    (SeededRandom.randomInt zeroStream ⟨0⟩ 1 0).1 = 1 ∧
      ¬ ((1 : ℤ) ≤ 0) ∧
      binaryCrossover zeroStream { genome := [1], fitness := some 1 }
          { genome := [0], fitness := some 0 } ⟨0⟩ =
        ({ genome := [1], fitness := some 1 }, ⟨1⟩) := by
  decide

/-- C10 amended: for length-1 parents the crossover path is not guarded;
it draws a cut index from the empty range `[1, 0]`, the draw always
evaluates to 1 (outside that range), and the copy loop is then empty, so
the child is an exact copy of parent1 and exactly one draw is consumed. -/
theorem binaryCrossover_length_one (rf : ℤ → ℚ) (p1 p2 : BinaryIndividual)
    (r : SeededRandom) (h : p1.genome.length = 1) :
    (SeededRandom.randomInt rf r 1 ((p1.genome.length : ℤ) - 1)).1 = 1 ∧
      binaryCrossover rf p1 p2 r = (p1.copy, ⟨r.seed + 1⟩) := by
  obtain ⟨a, ha⟩ := List.length_eq_one.mp h
  have hr : List.range 1 = [0] := rfl
  constructor
  · simp [SeededRandom.randomInt, SeededRandom.random, ha]
  · simp +decide [binaryCrossover, SeededRandom.randomInt, SeededRandom.random,
      spliceFrom, ha, BinaryIndividual.copy, hr]

theorem binaryCrossover_length_one_witness :
    (({ genome := [0], fitness := none } : BinaryIndividual).genome.length = 1) ∧
      ((SeededRandom.randomInt (fun _ => 1/3) ⟨5⟩ 1
          ((({ genome := [0], fitness := none } : BinaryIndividual).genome.length : ℤ) - 1)).1 = 1 ∧
        binaryCrossover (fun _ => 1/3) { genome := [0], fitness := none }
            { genome := [1, 1], fitness := some 2 } ⟨5⟩ =
          (({ genome := [0], fitness := none } : BinaryIndividual).copy, ⟨6⟩)) :=
  ⟨by decide,
    binaryCrossover_length_one (fun _ => 1/3) { genome := [0], fitness := none }
      { genome := [1, 1], fitness := some 2 } ⟨5⟩ (by decide)⟩

/-! ### C2: tournament selection tie-breaking -/

/-- C2 as stated is false on the code: here the two drawn candidates have
equal cached fitness but different genomes, and the tournament returns a
copy of the second drawn (`tiePop[1]`), not the first (`tiePop[0]`) —
`a.fitness! < b.fitness!` is false on a tie, so the ternary keeps `b`. -/
theorem tournament_tie_keeps_second :
    firstPick tieStream tiePop [0, 1] ⟨0⟩ = tiePop.getD 0 dfltInd ∧
      secondPick tieStream tiePop [0, 1] ⟨0⟩ = tiePop.getD 1 dfltInd ∧
      fitD (firstPick tieStream tiePop [0, 1] ⟨0⟩) =
        fitD (secondPick tieStream tiePop [0, 1] ⟨0⟩) ∧
      (tournamentSelection tieStream tiePop [0, 1] ⟨0⟩).1 =
        (tiePop.getD 1 dfltInd).copy ∧
      (tournamentSelection tieStream tiePop [0, 1] ⟨0⟩).1 ≠
        (tiePop.getD 0 dfltInd).copy := by
  decide

/-- C2 amended: each tournament draws two candidate ids via the stream and
returns a copy of the drawn candidate with strictly lower cached fitness —
its fitness is the minimum of the two — but when the two drawn candidates
have equal cached fitness it keeps the SECOND one drawn, and it leaves the
stream in the state after the two draws. -/
theorem tournamentSelection_spec (rf : ℤ → ℚ) (pop : List Individual)
    (indices : List ℕ) (r : SeededRandom) :
    (fitD (firstPick rf pop indices r) < fitD (secondPick rf pop indices r) →
      (tournamentSelection rf pop indices r).1 =
        (firstPick rf pop indices r).copy) ∧
    (fitD (secondPick rf pop indices r) < fitD (firstPick rf pop indices r) →
      (tournamentSelection rf pop indices r).1 =
        (secondPick rf pop indices r).copy) ∧
    (fitD (firstPick rf pop indices r) = fitD (secondPick rf pop indices r) →
      (tournamentSelection rf pop indices r).1 =
        (secondPick rf pop indices r).copy) ∧
    fitD (tournamentSelection rf pop indices r).1 =
      min (fitD (firstPick rf pop indices r))
        (fitD (secondPick rf pop indices r)) ∧
    (tournamentSelection rf pop indices r).2 =
      (SeededRandom.choice rf (SeededRandom.choice rf r indices 0).2
        indices 0).2 := by
  have key : tournamentSelection rf pop indices r =
      ((if fitD (firstPick rf pop indices r) <
            fitD (secondPick rf pop indices r)
          then firstPick rf pop indices r
          else secondPick rf pop indices r).copy,
        (SeededRandom.choice rf (SeededRandom.choice rf r indices 0).2
          indices 0).2) := rfl
  rw [key]
  by_cases hab :
      fitD (firstPick rf pop indices r) < fitD (secondPick rf pop indices r)
  · rw [if_pos hab]
    exact ⟨fun _ => rfl, fun h => absurd hab (asymm h),
      fun h => absurd h (ne_of_lt hab),
      by rw [fitD_copy]; exact (min_eq_left hab.le).symm, rfl⟩
  · rw [if_neg hab]
    exact ⟨fun h => absurd h hab, fun _ => rfl, fun _ => rfl,
      by rw [fitD_copy]; exact (min_eq_right (not_lt.mp hab)).symm, rfl⟩

theorem tournamentSelection_spec_witness :
    fitD (firstPick zeroStream tiePopW [0, 1] ⟨10⟩) =
        fitD (secondPick zeroStream tiePopW [0, 1] ⟨10⟩) ∧
      (tournamentSelection zeroStream tiePopW [0, 1] ⟨10⟩).1 =
        (secondPick zeroStream tiePopW [0, 1] ⟨10⟩).copy :=
  ⟨by decide,
    (tournamentSelection_spec zeroStream tiePopW [0, 1] ⟨10⟩).2.2.1 (by decide)⟩

/-! ### C3: constructor validation -/

/-- C3 as stated is false on the code: this configuration is invalid in
every respect the claim lists — non-positive population size (0), genome
length 0, and an unknown fitness-function identifier — yet the constructor
succeeds without raising anything. -/
theorem constructor_accepts_invalid_config :
    cfgInvalid.popSize = 0 ∧ cfgInvalid.genomeLength = 0 ∧
      cfgInvalid.fitnessFunction ∉
        (["onemax", "trap", "sphere", "rastrigin"] : List String) ∧
      (mkCellularGA zeroStream cosZ 0 cfgInvalid).isOk = true := by
  decide

/-- C3 amended: the constructor performs no configuration validation and
never raises a configuration error.  Any configuration with population
size 0 constructs successfully — whatever the fitness identifier, genome
length or topology.  An invalid fitness-function identifier surfaces only
indirectly, as a type error thrown by the first fitness evaluation inside
population initialisation, which requires a positive population size. -/
theorem constructor_no_validation :
    (∀ rf cosFn fuel cfg, cfg.popSize = 0 →
      (mkCellularGA rf cosFn fuel cfg).isOk = true) ∧
    (∀ rf cosFn fuel cfg, 1 ≤ cfg.popSize →
      cfg.fitnessFunction ∉
        (["onemax", "trap", "sphere", "rastrigin"] : List String) →
      mkCellularGA rf cosFn fuel cfg = .error .typeError) := by
  constructor
  · intro rf cosFn fuel cfg h0
    have htop : ∃ x,
        buildTopology rf fuel 0 cfg.topology cfg.rewiringProb ⟨cfg.seed⟩ =
          some x := by
      unfold buildTopology
      split_ifs <;> exact ⟨_, rfl⟩
    obtain ⟨x, hx⟩ := htop
    simp [mkCellularGA, h0, initPop, hx]
    rfl
  · intro rf cosFn fuel cfg h1 hnot
    simp only [List.mem_cons, List.not_mem_nil, or_false, not_or] at hnot
    obtain ⟨hom, htr, hsp, hra⟩ := hnot
    have hb : isBinary cfg = false := by
      simp [isBinary, hom, htr]
    obtain ⟨n, hn⟩ : ∃ n, cfg.popSize = n + 1 := ⟨cfg.popSize - 1, by omega⟩
    unfold mkCellularGA
    rw [hn]
    simp [initPop, createInd, hb, evaluate, hsp, hra]

theorem constructor_no_validation_witness :
    (cfgInvalid.popSize = 0 ∧
      (mkCellularGA zeroStream cosZ 3 cfgInvalid).isOk = true) ∧
    (1 ≤ cfgBadName.popSize ∧
      cfgBadName.fitnessFunction ∉
        (["onemax", "trap", "sphere", "rastrigin"] : List String) ∧
      mkCellularGA zeroStream cosZ 3 cfgBadName = .error .typeError) :=
  ⟨⟨rfl, constructor_no_validation.1 zeroStream cosZ 3 cfgInvalid rfl⟩,
    ⟨by decide, by decide,
      constructor_no_validation.2 zeroStream cosZ 3 cfgBadName (by decide)
        (by decide)⟩⟩

/-! ### C1: crossover rate is never consulted by evolve() -/

/-- C1 is false of the code and the configuration surface shows the claim
is the intent: `evolve()` never reads `config.crossoverRate` and always
performs crossover.  Concretely, with `crossoverRate = 0` and
`mutationRate = 0` (so the claim demands every child be an exact copy of a
tournament winner), the engine built from `cfgC1` and the stream `streamC1`
starts with genomes `[1,1,0]` and `[0,1,1]`, and one `evolve()` installs
genome `[1,1,1]` in cell 0 — a single-cut recombination of the two parents
that is a copy of no pre-existing individual. -/
theorem crossover_rate_ignored :
    cfgC1.crossoverRate = 0 ∧ cfgC1.mutationRate = 0 ∧
      (mkCellularGA streamC1 cosZ 0 cfgC1).map
          (fun s => s.population.map Individual.binGenome) =
        .ok [[1, 1, 0], [0, 1, 1]] ∧
      (mkCellularGA streamC1 cosZ 0 cfgC1).map
          (fun s =>
            (evolve streamC1 cosZ s).population.map Individual.binGenome) =
        .ok [[1, 1, 1], [0, 1, 1]] ∧
      [1, 1, 1] ∉ ([[1, 1, 0], [0, 1, 1]] : List (List ℕ)) := by
  decide

/-! ### C9: small-world with rewiring probability 0 -/

theorem rewireCell_prob_zero (rf : ℤ → ℚ) (hrf : ∀ z, 0 ≤ rf z)
    (fuel popSize i : ℕ) :
    ∀ todo j cur r, ∃ s,
      rewireCell rf fuel popSize i 0 j todo cur r = some (cur, s) := by
  intro todo
  induction todo with
  | zero => intro j cur r; exact ⟨r, rfl⟩
  | succ m ih =>
    intro j cur r
    have h : ¬ rf r.seed < 0 := not_lt.mpr (hrf r.seed)
    obtain ⟨s, hs⟩ := ih (j + 1) cur ⟨r.seed + 1⟩
    exact ⟨s, by simp [rewireCell, SeededRandom.random, h, hs]⟩

theorem rewireCells_prob_zero (rf : ℤ → ℚ) (hrf : ∀ z, 0 ≤ rf z)
    (fuel popSize : ℕ) :
    ∀ todo i rew r, ∃ s,
      rewireCells rf fuel popSize 0 i todo rew r = some (rew, s) := by
  intro todo
  induction todo with
  | zero => intro i rew r; exact ⟨r, rfl⟩
  | succ m ih =>
    intro i rew r
    obtain ⟨s1, hs1⟩ := rewireCell_prob_zero rf hrf fuel popSize i
      (rew.getD i []).length 0 (rew.getD i []) r
    obtain ⟨s2, hs2⟩ := ih (i + 1) rew s1
    refine ⟨s2, ?_⟩
    simp only [rewireCells, hs1, set_getD_self]
    exact hs2

/-- C9: For every population size, building the small-world topology with
rewiring probability 0 yields an adjacency list identical to the adjacency
list built by the ring topology for that population size (each gate draw
`random() < 0` fails since draws are nonnegative, so no slot is ever
rewired). -/
theorem smallworld_p0_eq_ring (rf : ℤ → ℚ) (hrf : ∀ z, 0 ≤ rf z)
    (fuel popSize : ℕ) (r : SeededRandom) :
    Option.map Prod.fst (buildSmallWorld rf fuel popSize 0 r) =
      some (buildRing popSize) := by
  obtain ⟨s, hs⟩ := rewireCells_prob_zero rf hrf fuel popSize popSize 0
    (buildRing popSize) r
  simp [buildSmallWorld, hs]

theorem smallworld_p0_eq_ring_witness :
    Option.map Prod.fst (buildSmallWorld zeroStream 0 5 0 ⟨3⟩) =
      some (buildRing 5) :=
  smallworld_p0_eq_ring zeroStream (fun _ => le_refl 0) 0 5 ⟨3⟩

/-! ### C7: small-world rejection loop at population sizes 1, 2, 3 -/

theorem drawNewNeighbor_covered (rf : ℤ → ℚ)
    (hrf : ∀ z, 0 ≤ rf z ∧ rf z < 1) (popSize i : ℕ) (hpop : 0 < popSize)
    (cur : List ℕ) (hcov : ∀ c, c < popSize → c = i ∨ c ∈ cur) :
    ∀ fuel r, drawNewNeighbor rf popSize i cur fuel r = none := by
  intro fuel
  induction fuel with
  | zero => intro r; rfl
  | succ m ih =>
    intro r
    have hcast : (((popSize : ℤ) - 1 : ℤ) - ((0 : ℤ) : ℚ) + 1 : ℚ) =
        (popSize : ℚ) := by push_cast; ring
    have hge : 0 ≤ ⌊rf r.seed * (popSize : ℚ)⌋ :=
      Int.floor_nonneg.mpr (mul_nonneg (hrf r.seed).1 (by positivity))
    have hlt : ⌊rf r.seed * (popSize : ℚ)⌋ < (popSize : ℤ) :=
      Int.floor_lt.mpr (by
        calc rf r.seed * (popSize : ℚ) < 1 * popSize :=
              mul_lt_mul_of_pos_right (hrf r.seed).2 (by exact_mod_cast hpop)
        _ = popSize := one_mul _)
    have hcand :
        ((SeededRandom.randomInt rf r 0 ((popSize : ℤ) - 1)).1).toNat <
          popSize := by
      simp only [SeededRandom.randomInt, SeededRandom.random, hcast]
      omega
    have hrej := hcov _ hcand
    simp only [drawNewNeighbor, hrej, or_true, true_or, if_pos]
    rcases hrej with h | h <;> simp [h, ih]

theorem rewireCell_covered (rf : ℤ → ℚ)
    (hrf : ∀ z, 0 ≤ rf z ∧ rf z < 1) (popSize i : ℕ) (hpop : 0 < popSize)
    (fuel : ℕ) (prob : ℚ) :
    ∀ todo j cur r res, (∀ c, c < popSize → c = i ∨ c ∈ cur) →
      rewireCell rf fuel popSize i prob j todo cur r = some res →
      res.1 = cur := by
  intro todo
  induction todo with
  | zero =>
    intro j cur r res _ h
    simp only [rewireCell, Option.some.injEq] at h
    rw [← h]
  | succ m ih =>
    intro j cur r res hcov h
    simp only [rewireCell] at h
    by_cases hp : (SeededRandom.random rf r).1 < prob
    · rw [if_pos hp] at h
      simp only [drawNewNeighbor_covered rf hrf popSize i hpop cur hcov fuel]
        at h
      exact Option.noConfusion h
    · rw [if_neg hp] at h
      exact ih (j + 1) cur _ res hcov h

theorem rewireCells_covered (rf : ℤ → ℚ)
    (hrf : ∀ z, 0 ≤ rf z ∧ rf z < 1) (popSize : ℕ) (hpop : 0 < popSize)
    (fuel : ℕ) (prob : ℚ) :
    ∀ todo i rew r res, i + todo ≤ popSize →
      (∀ i2, i2 < popSize → ∀ c, c < popSize → c = i2 ∨ c ∈ rew.getD i2 []) →
      rewireCells rf fuel popSize prob i todo rew r = some res →
      res.1 = rew := by
  intro todo
  induction todo with
  | zero =>
    intro i rew r res _ _ h
    simp only [rewireCells, Option.some.injEq] at h
    rw [← h]
  | succ m ih =>
    intro i rew r res hb hcov h
    simp only [rewireCells] at h
    cases hrc : rewireCell rf fuel popSize i prob 0 (rew.getD i []).length
        (rew.getD i []) r with
    | none =>
      simp only [hrc] at h
      exact Option.noConfusion h
    | some lr =>
      obtain ⟨l, r2⟩ := lr
      simp only [hrc] at h
      have hl : l = rew.getD i [] :=
        rewireCell_covered rf hrf popSize i hpop fuel prob
          (rew.getD i []).length 0 (rew.getD i []) r (l, r2)
          (hcov i (by omega)) hrc
      rw [hl, set_getD_self] at h
      exact ih (i + 1) rew r2 res (by omega) hcov h

/-- C7: For population sizes 1, 2 and 3, the two ring slots together with
the cell's own id already cover every drawable id, so once the rewiring
branch is entered the inner do-while rejection loop rejects every draw and
never terminates (the fuelled model returns `none` for every fuel); and the
whole small-world construction can only terminate with the ring adjacency
unchanged (that is, only when no rewiring branch was ever entered). -/
theorem smallworld_small_pop_rejects_forever (rf : ℤ → ℚ)
    (hrf : ∀ z, 0 ≤ rf z ∧ rf z < 1) (N : ℕ)
    (hN : N = 1 ∨ N = 2 ∨ N = 3) :
    (∀ i, i < N → ∀ c, c < N → c = i ∨ c ∈ (buildRing N).getD i []) ∧
    (∀ i cur, i < N → (∀ c, c < N → c = i ∨ c ∈ cur) →
      ∀ fuel r, drawNewNeighbor rf N i cur fuel r = none) ∧
    (∀ fuel prob r res, buildSmallWorld rf fuel N prob r = some res →
      res.1 = buildRing N) := by
  have hpop : 0 < N := by rcases hN with h | h | h <;> omega
  have hcov : ∀ i, i < N → ∀ c, c < N → c = i ∨ c ∈ (buildRing N).getD i [] := by
    rcases hN with h | h | h <;> subst h <;> decide
  refine ⟨hcov, ?_, ?_⟩
  · intro i cur _ hc fuel r
    exact drawNewNeighbor_covered rf hrf N i hpop cur hc fuel r
  · intro fuel prob r res h
    exact rewireCells_covered rf hrf N hpop fuel prob N 0 (buildRing N) r res
      (by omega) (fun i2 hi2 c hc => hcov i2 hi2 c hc) h

theorem smallworld_small_pop_rejects_forever_witness :
    (0 < 3 ∧ (∀ c, c < 3 → c = 0 ∨ c ∈ ([2, 1] : List ℕ))) ∧
      drawNewNeighbor zeroStream 3 0 [2, 1] 5 ⟨0⟩ = none :=
  ⟨⟨by decide, by decide⟩,
    (smallworld_small_pop_rejects_forever zeroStream
        (fun z => ⟨le_refl 0, by norm_num [zeroStream]⟩) 3 (by decide)).2.1 0 [2, 1]
      (by decide) (by decide) 5 ⟨0⟩⟩

/-! ### C5: determinism -/

/-- C5: two engines constructed from equal configurations (the seed is part
of the configuration) and the same seed-indexed draw stream and cosine
table have identical population contents and identical history sequences
after any number `k` of `evolve()` calls each: every random draw in a run
is a function of the seed counter alone. -/
theorem engine_deterministic (rf1 rf2 : ℤ → ℚ) (cosFn1 cosFn2 : ℚ → ℚ)
    (fuel : ℕ) (cfg1 cfg2 : GAConfig) (k : ℕ) (hcfg : cfg1 = cfg2)
    (hrf : ∀ z, rf1 z = rf2 z) (hcos : ∀ q, cosFn1 q = cosFn2 q) :
    (mkCellularGA rf1 cosFn1 fuel cfg1).map
        (fun s => ((evolve rf1 cosFn1)^[k] s).population) =
      (mkCellularGA rf2 cosFn2 fuel cfg2).map
        (fun s => ((evolve rf2 cosFn2)^[k] s).population) ∧
    (mkCellularGA rf1 cosFn1 fuel cfg1).map
        (fun s => ((evolve rf1 cosFn1)^[k] s).histBest) =
      (mkCellularGA rf2 cosFn2 fuel cfg2).map
        (fun s => ((evolve rf2 cosFn2)^[k] s).histBest) ∧
    (mkCellularGA rf1 cosFn1 fuel cfg1).map
        (fun s => ((evolve rf1 cosFn1)^[k] s).histAvg) =
      (mkCellularGA rf2 cosFn2 fuel cfg2).map
        (fun s => ((evolve rf2 cosFn2)^[k] s).histAvg) := by
  have h1 : rf1 = rf2 := funext hrf
  have h2 : cosFn1 = cosFn2 := funext hcos
  subst h1
  subst h2
  subst hcfg
  exact ⟨rfl, rfl, rfl⟩

theorem engine_deterministic_witness :
    (mkCellularGA zeroStream cosZ 10 cfgW).map
        (fun s => ((evolve zeroStream cosZ)^[2] s).population) =
      (mkCellularGA zeroStream cosZ 10 cfgW).map
        (fun s => ((evolve zeroStream cosZ)^[2] s).population) :=
  (engine_deterministic zeroStream zeroStream cosZ cosZ 10 cfgW cfgW 2 rfl
    (fun _ => rfl) (fun _ => rfl)).1

/-! ### Facts about construction and one evolve() step -/

theorem initPop_length (rf : ℤ → ℚ) (cosFn : ℚ → ℚ) (cfg : GAConfig) :
    ∀ n r pop r2, initPop rf cosFn cfg n r = .ok (pop, r2) →
      pop.length = n := by
  intro n
  induction n with
  | zero =>
    intro r pop r2 h
    simp only [initPop, Except.ok.injEq, Prod.mk.injEq] at h
    rw [← h.1]
    rfl
  | succ m ih =>
    intro r pop r2 h
    simp only [initPop] at h
    cases hev : evaluate cosFn cfg.fitnessFunction (createInd rf cfg r).1 with
    | none => rw [hev] at h; exact Except.noConfusion h
    | some f =>
      rw [hev] at h
      cases hrec : initPop rf cosFn cfg m (createInd rf cfg r).2 with
      | error e => rw [hrec] at h; exact Except.noConfusion h
      | ok pr =>
        obtain ⟨rest, r3⟩ := pr
        rw [hrec] at h
        simp only [Except.ok.injEq, Prod.mk.injEq] at h
        rw [← h.1]
        simp [ih _ _ _ hrec]

theorem mkCellularGA_ok (rf : ℤ → ℚ) (cosFn : ℚ → ℚ) (fuel : ℕ)
    (cfg : GAConfig) (s0 : CellularGA)
    (h : mkCellularGA rf cosFn fuel cfg = .ok s0) :
    s0.config = cfg ∧ s0.population.length = cfg.popSize ∧
      s0.histBest = [] ∧ s0.histAvg = [] ∧ s0.generation = 0 := by
  unfold mkCellularGA at h
  cases hinit : initPop rf cosFn cfg cfg.popSize ⟨cfg.seed⟩ with
  | error e => rw [hinit] at h; exact Except.noConfusion h
  | ok pr =>
    obtain ⟨pop, r1⟩ := pr
    rw [hinit] at h
    cases htop : buildTopology rf fuel cfg.popSize cfg.topology
        cfg.rewiringProb r1 with
    | none => simp only [htop] at h; exact Except.noConfusion h
    | some nb =>
      obtain ⟨nbrs, r2⟩ := nb
      simp only [htop, Except.ok.injEq] at h
      rw [← h]
      exact ⟨rfl, initPop_length rf cosFn cfg _ _ _ _ hinit, rfl, rfl, rfl⟩

theorem evolveCell_fit_le (rf : ℤ → ℚ) (cosFn : ℚ → ℚ) (cfg : GAConfig)
    (nbrs : List (List ℕ)) (pop : List Individual) (i : ℕ)
    (r : SeededRandom) :
    fitD (evolveCell rf cosFn cfg nbrs pop i r).1 ≤
      fitD (pop.getD i dfltInd) := by
  unfold evolveCell
  dsimp only
  split
  all_goals split
  all_goals first
    | exact le_of_lt (by assumption)
    | exact le_refl _

theorem evolvePop_length (rf : ℤ → ℚ) (cosFn : ℚ → ℚ) (cfg : GAConfig)
    (nbrs : List (List ℕ)) (pop : List Individual) :
    ∀ n i r, (evolvePop rf cosFn cfg nbrs pop i n r).1.length = n := by
  intro n
  induction n with
  | zero => intro i r; rfl
  | succ m ih =>
    intro i r
    simp only [evolvePop, List.length_cons, ih]

theorem evolvePop_fit_le (rf : ℤ → ℚ) (cosFn : ℚ → ℚ) (cfg : GAConfig)
    (nbrs : List (List ℕ)) (pop : List Individual) :
    ∀ n i j r, j < n →
      fitD ((evolvePop rf cosFn cfg nbrs pop i n r).1.getD j dfltInd) ≤
        fitD (pop.getD (i + j) dfltInd) := by
  intro n
  induction n with
  | zero => intro i j r h; omega
  | succ m ih =>
    intro i j r h
    cases j with
    | zero =>
      simp only [evolvePop, List.getD_cons_zero, Nat.add_zero]
      exact evolveCell_fit_le rf cosFn cfg nbrs pop i r
    | succ jj =>
      simp only [evolvePop, List.getD_cons_succ]
      rw [show i + (jj + 1) = (i + 1) + jj from by omega]
      exact ih (i + 1) jj _ (by omega)

theorem getD_map_fitD (pop : List Individual) :
    ∀ j, j < pop.length →
      (pop.map fitD).getD j 0 = fitD (pop.getD j dfltInd) := by
  induction pop with
  | nil => intro j h; simp at h
  | cons a t ih =>
    intro j h
    cases j with
    | zero => rfl
    | succ m =>
      simp only [List.map_cons, List.getD_cons_succ]
      exact ih m (by simp only [List.length_cons] at h; omega)

theorem foldl_min_mono :
    ∀ (l1 l2 : List ℚ), l1.length = l2.length →
      (∀ j, j < l1.length → l1.getD j 0 ≤ l2.getD j 0) →
      ∀ a1 a2 : ℚ, a1 ≤ a2 → l1.foldl min a1 ≤ l2.foldl min a2 := by
  intro l1
  induction l1 with
  | nil =>
    intro l2 hlen _ a1 a2 ha
    have h2 : l2 = [] := List.length_eq_zero.mp hlen.symm
    subst h2
    exact ha
  | cons x xs ih =>
    intro l2 hlen hpt a1 a2 ha
    cases l2 with
    | nil => simp at hlen
    | cons y ys =>
      simp only [List.foldl_cons]
      refine ih ys ?_ ?_ (min a1 x) (min a2 y) ?_
      · simp only [List.length_cons] at hlen; omega
      · intro j hj
        exact hpt (j + 1) (by simp only [List.length_cons]; omega)
      · exact min_le_min ha (hpt 0 (by simp))

theorem jsMin_mono (l1 l2 : List ℚ) (hlen : l1.length = l2.length)
    (hpt : ∀ j, j < l1.length → l1.getD j 0 ≤ l2.getD j 0) :
    jsMin l1 ≤ jsMin l2 := by
  cases l1 with
  | nil =>
    cases l2 with
    | nil => exact le_refl _
    | cons y ys => simp at hlen
  | cons x xs =>
    cases l2 with
    | nil => simp at hlen
    | cons y ys =>
      simp only [jsMin]
      exact foldl_min_mono xs ys
        (by simp only [List.length_cons] at hlen; omega)
        (fun j hj => hpt (j + 1) (by simp only [List.length_cons]; omega))
        x y (hpt 0 (by simp))

theorem evolve_pop_eq (rf : ℤ → ℚ) (cosFn : ℚ → ℚ) (s : CellularGA) :
    (evolve rf cosFn s).population =
      (evolvePop rf cosFn s.config s.neighbors s.population 0
        s.config.popSize s.rng).1 := rfl

theorem evolve_newmin_le (rf : ℤ → ℚ) (cosFn : ℚ → ℚ) (s : CellularGA)
    (hlen : s.population.length = s.config.popSize) :
    jsMin ((evolve rf cosFn s).population.map fitD) ≤
      jsMin (s.population.map fitD) := by
  have hnew : (evolve rf cosFn s).population.length = s.config.popSize := by
    rw [evolve_pop_eq]
    exact evolvePop_length rf cosFn s.config s.neighbors s.population
      s.config.popSize 0 s.rng
  apply jsMin_mono
  · simp [hnew, hlen]
  · intro j hj
    have hj2 : j < s.config.popSize := by
      simpa [hnew] using hj
    rw [getD_map_fitD _ j (by rw [hnew]; exact hj2),
      getD_map_fitD _ j (by rw [hlen]; exact hj2)]
    rw [evolve_pop_eq]
    have := evolvePop_fit_le rf cosFn s.config s.neighbors s.population
      s.config.popSize 0 j s.rng hj2
    simpa using this

/-- State invariant behind the monotone-best property: the population has
the configured size, the recorded best-history is adjacentwise
non-increasing, and its last entry (if any) is the current population's
minimum cached fitness. -/
def goodState (s : CellularGA) : Prop :=
  s.population.length = s.config.popSize ∧
  List.Chain' (fun x y => y ≤ x) s.histBest ∧
  ∀ x ∈ s.histBest.getLast?, x = jsMin (s.population.map fitD)

theorem updateHistory_small (pop : List Individual) (hb ha : List ℚ)
    (h : hb.length < 300) :
    updateHistory pop hb ha =
      (hb ++ [jsMin (pop.map fitD)], ha ++ [jsAvg (pop.map fitD)]) := by
  unfold updateHistory
  rw [if_neg]
  simp only [List.length_append, List.length_cons, List.length_nil]
  omega

theorem updateHistory_full (pop : List Individual) (hb ha : List ℚ)
    (h : 300 ≤ hb.length) :
    updateHistory pop hb ha =
      ((hb ++ [jsMin (pop.map fitD)]).drop 1,
        (ha ++ [jsAvg (pop.map fitD)]).drop 1) := by
  unfold updateHistory
  rw [if_pos]
  simp only [List.length_append, List.length_cons, List.length_nil]
  omega

theorem goodState_evolve (rf : ℤ → ℚ) (cosFn : ℚ → ℚ) (s : CellularGA)
    (h : goodState s) : goodState (evolve rf cosFn s) := by
  obtain ⟨hlen, hchain, hlast⟩ := h
  have hminle := evolve_newmin_le rf cosFn s hlen
  have hb2 : (evolve rf cosFn s).histBest =
      (updateHistory (evolve rf cosFn s).population s.histBest s.histAvg).1 :=
    rfl
  have hchain2 : List.Chain' (fun x y => y ≤ x)
      (s.histBest ++ [jsMin ((evolve rf cosFn s).population.map fitD)]) := by
    rw [List.chain'_append]
    refine ⟨hchain, List.chain'_singleton _, ?_⟩
    intro x hx y hy
    simp only [List.head?_cons, Option.mem_def, Option.some.injEq] at hy
    rw [← hy, hlast x hx]
    exact hminle
  have hlast2 :
      (s.histBest ++
          [jsMin ((evolve rf cosFn s).population.map fitD)]).getLast?
        = some (jsMin ((evolve rf cosFn s).population.map fitD)) :=
    List.getLast?_concat _
  refine ⟨?_, ?_, ?_⟩
  · rw [evolve_pop_eq]
    exact evolvePop_length rf cosFn s.config s.neighbors s.population
      s.config.popSize 0 s.rng
  · rw [hb2]
    by_cases hfull : 300 ≤ s.histBest.length
    · rw [updateHistory_full _ _ _ hfull]
      dsimp only
      rw [List.drop_one]
      exact hchain2.tail
    · rw [updateHistory_small _ _ _ (by omega)]
      exact hchain2
  · rw [hb2]
    by_cases hfull : 300 ≤ s.histBest.length
    · rw [updateHistory_full _ _ _ hfull]
      dsimp only
      have hne : 1 ≤ s.histBest.length := by omega
      rw [List.drop_append_of_le_length hne, List.getLast?_concat]
      intro x hx
      have hx2 : jsMin ((evolve rf cosFn s).population.map fitD) = x := by
        simpa using hx
      exact hx2.symm
    · rw [updateHistory_small _ _ _ (by omega)]
      dsimp only
      rw [hlast2]
      intro x hx
      have hx2 : jsMin ((evolve rf cosFn s).population.map fitD) = x := by
        simpa using hx
      exact hx2.symm

theorem goodState_reachable (rf : ℤ → ℚ) (cosFn : ℚ → ℚ) (fuel : ℕ)
    (cfg : GAConfig) (s0 : CellularGA)
    (h0 : mkCellularGA rf cosFn fuel cfg = .ok s0) (k : ℕ) :
    goodState ((evolve rf cosFn)^[k] s0) := by
  induction k with
  | zero =>
    obtain ⟨hc, hl, hb, -, -⟩ := mkCellularGA_ok rf cosFn fuel cfg s0 h0
    rw [Function.iterate_zero_apply]
    refine ⟨by rw [hc, hl], ?_, ?_⟩
    · rw [hb]
      exact List.chain'_nil
    · rw [hb]
      intro x hx
      simp at hx
  | succ m ih =>
    rw [Function.iterate_succ_apply']
    exact goodState_evolve rf cosFn _ ih

/-- C4: under the strict replace-only-if-better policy of `evolve()`, the
recorded best fitness never increases: on every reachable engine state,
adjacent entries of `history.best` satisfy `best[g+1] ≤ best[g]`. -/
theorem history_best_monotone (rf : ℤ → ℚ) (cosFn : ℚ → ℚ) (fuel : ℕ)
    (cfg : GAConfig) (s0 : CellularGA)
    (h0 : mkCellularGA rf cosFn fuel cfg = .ok s0) (k j : ℕ)
    (hj : j + 1 < ((evolve rf cosFn)^[k] s0).histBest.length) :
    ((evolve rf cosFn)^[k] s0).histBest.getD (j + 1) 0 ≤
      ((evolve rf cosFn)^[k] s0).histBest.getD j 0 := by
  have hchain := (goodState_reachable rf cosFn fuel cfg s0 h0 k).2.1
  rw [List.chain'_iff_get] at hchain
  have hstep := hchain j (by omega)
  rw [List.getD_eq_getElem _ _ hj, List.getD_eq_getElem _ _ (by omega)]
  simpa using hstep

theorem history_best_monotone_witness :
    (0 + 1 < ((evolve zeroStream cosZ)^[2] s0W).histBest.length) ∧
      ((evolve zeroStream cosZ)^[2] s0W).histBest.getD (0 + 1) 0 ≤
        ((evolve zeroStream cosZ)^[2] s0W).histBest.getD 0 0 :=
  ⟨by decide,
    history_best_monotone zeroStream cosZ 10 cfgW s0W (by decide) 2 0
      (by decide)⟩

/-! ### C6: bounded FIFO history -/

theorem evolve_histBest_eq (rf : ℤ → ℚ) (cosFn : ℚ → ℚ) (s : CellularGA) :
    (evolve rf cosFn s).histBest =
      (updateHistory (evolve rf cosFn s).population s.histBest s.histAvg).1 :=
  rfl

theorem evolve_histAvg_eq (rf : ℤ → ℚ) (cosFn : ℚ → ℚ) (s : CellularGA) :
    (evolve rf cosFn s).histAvg =
      (updateHistory (evolve rf cosFn s).population s.histBest s.histAvg).2 :=
  rfl

theorem bestSeq_length (rf : ℤ → ℚ) (cosFn : ℚ → ℚ) (s0 : CellularGA)
    (k : ℕ) : (bestSeq rf cosFn s0 k).length = k := by
  simp [bestSeq]

theorem avgSeq_length (rf : ℤ → ℚ) (cosFn : ℚ → ℚ) (s0 : CellularGA)
    (k : ℕ) : (avgSeq rf cosFn s0 k).length = k := by
  simp [avgSeq]

theorem bestSeq_succ (rf : ℤ → ℚ) (cosFn : ℚ → ℚ) (s0 : CellularGA)
    (m : ℕ) :
    bestSeq rf cosFn s0 (m + 1) =
      bestSeq rf cosFn s0 m ++
        [jsMin ((evolve rf cosFn ((evolve rf cosFn)^[m] s0)).population.map
          fitD)] := by
  simp [bestSeq, List.range_succ, Function.iterate_succ_apply']

theorem avgSeq_succ (rf : ℤ → ℚ) (cosFn : ℚ → ℚ) (s0 : CellularGA)
    (m : ℕ) :
    avgSeq rf cosFn s0 (m + 1) =
      avgSeq rf cosFn s0 m ++
        [jsAvg ((evolve rf cosFn ((evolve rf cosFn)^[m] s0)).population.map
          fitD)] := by
  simp [avgSeq, List.range_succ, Function.iterate_succ_apply']

theorem drop_concat_window (A : List ℚ) (x : ℚ) (m : ℕ) (hA : A.length = m)
    (hm : 300 ≤ m) :
    ((A.drop (m - 300)) ++ [x]).drop 1 = (A ++ [x]).drop (m + 1 - 300) := by
  rw [List.drop_append_of_le_length (by simp [hA]; omega),
    List.drop_drop,
    List.drop_append_of_le_length (by rw [hA]; omega),
    show m - 300 + 1 = m + 1 - 300 from by omega]

/-- C6: after every `evolve()` call the two history sequences have equal
length, equal to `min k 300` after `k` calls (so never above 300); and each
equals the sequence of per-generation (min fitness, mean fitness) values of
generations `1 … k` with the oldest `k - 300` entries dropped, oldest
first — so after more than 300 calls the length is exactly 300 and the
sequences hold exactly the most recent 300 generations' values under FIFO
truncation. -/
theorem history_window (rf : ℤ → ℚ) (cosFn : ℚ → ℚ) (fuel : ℕ)
    (cfg : GAConfig) (s0 : CellularGA)
    (h0 : mkCellularGA rf cosFn fuel cfg = .ok s0) (k : ℕ) :
    ((evolve rf cosFn)^[k] s0).histBest.length =
        ((evolve rf cosFn)^[k] s0).histAvg.length ∧
      ((evolve rf cosFn)^[k] s0).histBest.length = min k 300 ∧
      ((evolve rf cosFn)^[k] s0).histBest =
        (bestSeq rf cosFn s0 k).drop (k - 300) ∧
      ((evolve rf cosFn)^[k] s0).histAvg =
        (avgSeq rf cosFn s0 k).drop (k - 300) := by
  obtain ⟨-, -, hb0, ha0, -⟩ := mkCellularGA_ok rf cosFn fuel cfg s0 h0
  induction k with
  | zero =>
    rw [Function.iterate_zero_apply]
    exact ⟨by simp [hb0, ha0], by simp [hb0], by simp [hb0, bestSeq],
      by simp [ha0, avgSeq]⟩
  | succ m ih =>
    obtain ⟨ih1, ih2, ih3, ih4⟩ := ih
    rw [Function.iterate_succ_apply', bestSeq_succ, avgSeq_succ,
      evolve_histBest_eq, evolve_histAvg_eq]
    by_cases hm : m < 300
    · rw [updateHistory_small _ _ _ (by rw [ih2]; omega)]
      dsimp only
      refine ⟨by simp [ih1], ?_, ?_, ?_⟩
      · simp only [List.length_append, List.length_cons, List.length_nil,
          ih2]
        omega
      · rw [ih3, show m - 300 = 0 from by omega,
          show m + 1 - 300 = 0 from by omega]
        simp
      · rw [ih4, show m - 300 = 0 from by omega,
          show m + 1 - 300 = 0 from by omega]
        simp
    · rw [updateHistory_full _ _ _ (by rw [ih2]; omega)]
      dsimp only
      refine ⟨by simp [ih1], ?_, ?_, ?_⟩
      · simp only [List.length_drop, List.length_append, List.length_cons,
          List.length_nil, ih2]
        omega
      · rw [ih3]
        exact drop_concat_window _ _ m (bestSeq_length rf cosFn s0 m)
          (by omega)
      · rw [ih4]
        exact drop_concat_window _ _ m (avgSeq_length rf cosFn s0 m)
          (by omega)

theorem history_window_witness :
    ((evolve zeroStream cosZ)^[301] s0W).histBest.length = min 301 300 :=
  (history_window zeroStream cosZ 10 cfgW s0W (by decide) 301).2.1

end SemireducibleRat

end CGA
